import Mathlib

/-!
Verification development for the course-recommendation engine in
src/recommender.py (class CourseRecommender).

The Python code is shallowly embedded: pandas DataFrames become lists of
records, floats become exact rationals (reals where square roots are
needed), Python's stable sort becomes insertion sort (any stable sort is
a faithful model of Timsort's observable behaviour), and Python list
slices and round() are modelled explicitly.  The sklearn vectorizer and
cosine_similarity are external libraries; they are modelled from their
documented behaviour at the points where a claim depends on them, as
noted in the relevant doc comments.
-/

namespace CourseRec

/-- Python str.strip(): drop whitespace from both ends.  Implemented on the
character list so that it reduces on concrete inputs. -/
def pyStrip (s : String) : String :=
  String.mk (((s.data.dropWhile Char.isWhitespace).reverse.dropWhile Char.isWhitespace).reverse)

/-- Python round() to an integer: round half to even (banker's rounding),
idealized over exact rationals. -/
def pyRoundInt (q : ℚ) : ℤ :=
  if q - ⌊q⌋ < 1/2 then ⌊q⌋
  else if 1/2 < q - ⌊q⌋ then ⌊q⌋ + 1
  else if ⌊q⌋ % 2 = 0 then ⌊q⌋ else ⌊q⌋ + 1

/-- Python round(q, n) for n ≥ 1 decimal digits. -/
def pyRound (q : ℚ) (n : ℕ) : ℚ := (pyRoundInt (q * 10 ^ n) : ℚ) / 10 ^ n

/-- Python list slice l[start:stop] with step 1: negative indices count from
the end, and both bounds are clamped to the list. -/
def pySlice {α : Type} (l : List α) (start stop : ℤ) : List α :=
  let n : ℤ := l.length
  let s := if start < 0 then max 0 (n + start) else min start n
  let e := if stop < 0 then max 0 (n + stop) else min stop n
  (l.drop s.toNat).take (e - s).toNat

/-- One row of courses_df after the fillna defaulting in _prepare_data:
text fields default to the empty string, numeric fields to 0. -/
structure Course where
  course_id : String
  title : String
  subject : String
  level : String
  description : String
  rating : ℚ
  students : ℚ
  duration : ℚ
  price : ℚ
deriving DecidableEq, Inhabited

/-- One row of interactions_df. -/
structure Interaction where
  user_id : String
  course_id : String
  rating : ℚ
  subject : String
  level : String
deriving DecidableEq, Inhabited

/-- Engine state after __init__/_prepare_data: the three frames it keeps and
the similarity matrix self.similarity_matrix computed at construction by the
external library (cosine_similarity over the TF-IDF rows); the query methods
only ever read this stored matrix. -/
structure Recommender where
  courses : List Course
  interactions : List Interaction
  simMatrix : List (List ℚ)
deriving DecidableEq, Inhabited

/-- The combined_features column: title, subject, level, description joined
with single spaces, in that order. -/
def combined_features (c : Course) : String :=
  c.title ++ " " ++ c.subject ++ " " ++ c.level ++ " " ++ c.description

/-- The description field of a result dict: truncated to 200 characters plus
an ellipsis marker when longer than 200. -/
def truncDesc (s : String) : String :=
  if 200 < s.data.length then String.mk (s.data.take 200) ++ "..." else s

/-- A result dict as built in the recommendation loops of
recommend_by_course and recommend_by_user. -/
structure Recommendation where
  course_id : String
  title : String
  subject : String
  level : String
  description : String
  rating : ℚ
  students : ℚ
  duration : ℚ
  price : ℚ
  similarity_score : ℚ
  match_percentage : ℚ
deriving DecidableEq, Inhabited

/-- Build the result dict for a course and a raw score: similarity_score is
the score rounded to 3 decimals, match_percentage is score*100 rounded to 1. -/
def mkRecommendation (c : Course) (score : ℚ) : Recommendation :=
  { course_id := c.course_id
    title := c.title
    subject := c.subject
    level := c.level
    description := truncDesc c.description
    rating := c.rating
    students := c.students
    duration := c.duration
    price := c.price
    similarity_score := pyRound score 3
    match_percentage := pyRound (score * 100) 1 }

/-- Row i of the stored similarity matrix, self.similarity_matrix[i]. -/
def simRow (r : Recommender) (i : ℕ) : List ℚ := r.simMatrix.getD i []

/-- Annotate one (index, score) pair: the dict built from courses_df.iloc[idx]
and the score. -/
def mkOf (r : Recommender) (p : ℕ × ℚ) : Recommendation :=
  mkRecommendation (r.courses.getD p.1 default) p.2

/-- The comparison performed by sorted(sim_scores, key=lambda x: x[1],
reverse=True): a comes no later than b iff the score of b is at most the
score of a; insertion sort with this relation is stable exactly as Python's
sorted is. -/
def scoreGe (a b : ℕ × ℚ) : Prop := b.2 ≤ a.2

instance : DecidableRel scoreGe := fun a b => inferInstanceAs (Decidable (b.2 ≤ a.2))

/-- recommend_by_course: look up the first course whose title equals the query
exactly, take its similarity row, stable-sort all (index, score) pairs by
descending score, drop the first sorted entry and keep the next top_n
(the slice sim_scores[1:top_n+1]), then annotate. -/
def recommend_by_course (r : Recommender) (course_title : String) (top_n : ℤ) :
    List Recommendation :=
  match r.courses.findIdx? (fun c => c.title == course_title) with
  | none => []
  | some course_idx =>
    let sim_scores := (simRow r course_idx).enum
    let sorted := List.insertionSort scoreGe sim_scores
    (pySlice sorted 1 (top_n + 1)).map (mkOf r)

/-- pandas Series.unique(): de-duplicate keeping first occurrences in order. -/
def dedupKeepFirst (l : List String) : List String :=
  l.foldl (fun acc a => if a ∈ acc then acc else acc ++ [a]) []

/-- The dict self.course_id_to_idx built by a comprehension over enumerate:
a later index overwrites an earlier one for a duplicate id, so lookup yields
the last index carrying the id. -/
def course_id_to_idx (cs : List Course) (cid : String) : Option ℕ :=
  (List.range cs.length).reverse.find? (fun i => (cs.getD i default).course_id == cid)

/-- The aggregate preference vector avg_similarity at position j: elementwise
arithmetic mean of the similarity rows of the liked indices. -/
def aggregate_score (r : Recommender) (liked_indices : List ℕ) (j : ℕ) : ℚ :=
  (liked_indices.map (fun i => (simRow r i).getD j 0)).sum / (liked_indices.length : ℚ)

/-- The candidate loop of recommend_by_user before annotation: every item
index j in original order, skipping items whose id the user has interacted
with, paired with its aggregate score. -/
def user_candidates (r : Recommender) (taken : List String) (liked_indices : List ℕ) :
    List (ℕ × ℚ) :=
  (List.range r.courses.length).filterMap (fun j =>
    if (r.courses.getD j default).course_id ∈ taken then none
    else some (j, aggregate_score r liked_indices j))

/-- The comparison performed by sorted(recommendations,
key=lambda x: x['similarity_score'], reverse=True): the key is the rounded
similarity_score field stored in the dict. -/
def recGe (a b : Recommendation) : Prop := b.similarity_score ≤ a.similarity_score

instance : DecidableRel recGe :=
  fun a b => inferInstanceAs (Decidable (b.similarity_score ≤ a.similarity_score))

/-- The tail of recommend_by_user once the liked subset is fixed: resolve
liked ids to indices (dropping unknown ids), build and annotate the
candidates, stable-sort by the stored similarity_score, return the slice
recommendations[:top_n]. -/
def recommend_from_liked (r : Recommender) (user_courses liked_courses : List Interaction)
    (top_n : ℤ) : List Recommendation :=
  let liked_course_ids := dedupKeepFirst (liked_courses.map (fun it => it.course_id))
  let liked_indices := liked_course_ids.filterMap (course_id_to_idx r.courses)
  if liked_indices.isEmpty then []
  else
    let taken := user_courses.map (fun it => it.course_id)
    let recommendations := (user_candidates r taken liked_indices).map (mkOf r)
    pySlice (List.insertionSort recGe recommendations) 0 top_n

/-- recommend_by_user: select the (stripped) user's interactions, use the
subset rated at least 4.5 as liked, falling back to all of the user's
interactions when that subset is empty, then rank as above. -/
def recommend_by_user (r : Recommender) (user_id : String) (top_n : ℤ) :
    List Recommendation :=
  let uid := pyStrip user_id
  let user_courses := r.interactions.filter (fun it => it.user_id == uid)
  if user_courses.isEmpty then []
  else
    let liked0 := user_courses.filter (fun it => decide ((4.5 : ℚ) ≤ it.rating))
    let liked_courses := if liked0.isEmpty then user_courses else liked0
    recommend_from_liked r user_courses liked_courses top_n

/-- The metacharacters of Python regular expressions, by code point:
. ^ $ * + ? ( ) [ ] \ | and the two curly braces. -/
def metaChars : List Char :=
  [46, 94, 36, 42, 43, 63, 40, 41, 91, 93, 92, 124, 123, 125].map Char.ofNat

/-- Matching of a Python regular-expression pattern at the start of a text,
for the fragment in which the dot (any character except a newline) is the
only metacharacter.  pandas Series.str.contains treats its argument as a
regular expression by default (regex=True); all patterns this development
evaluates concretely stay inside this fragment, and the theorems about
literal queries assume the absence of metacharacters. -/
def reMatchAt : List Char → List Char → Bool
  | [], _ => true
  | _ :: _, [] => false
  | p :: ps, t :: ts => (if p = '.' then t != '\n' else p == t) && reMatchAt ps ts

/-- Python re.search over the fragment: does the pattern match starting at
some position of the text? -/
def reSearch (pat : List Char) : List Char → Bool
  | [] => reMatchAt pat []
  | t :: ts => reMatchAt pat (t :: ts) || reSearch pat ts

/-- Series.str.contains(query, case=False, na=False): case-insensitive
regular-expression search of the query in the field. -/
def strContainsCI (s : String) (pat : String) : Bool :=
  reSearch (pat.data.map Char.toLower) (s.data.map Char.toLower)

/-- Literal prefix test: the pattern starts the text, character by character. -/
def litStarts : List Char → List Char → Bool
  | [], _ => true
  | _ :: _, [] => false
  | p :: ps, t :: ts => p == t && litStarts ps ts

/-- Literal substring test: the pattern occurs contiguously in the text. -/
def litSub (pat : List Char) : List Char → Bool
  | [] => litStarts pat []
  | t :: ts => litStarts pat (t :: ts) || litSub pat ts

/-- Stated from the spec's words: case-insensitive literal substring test,
used to compare search_courses against its specification. -/
def substrCI (s : String) (pat : String) : Bool :=
  litSub (pat.data.map Char.toLower) (s.data.map Char.toLower)

/-- search_courses: apply, in order, the query mask (title OR description OR
subject, case-insensitive, skipped for a None/empty/whitespace-only query),
the subject and level equality filters (skipped for None, empty, or "All"),
and the minimum-rating filter (skipped unless min_rating > 0). -/
def search_courses (r : Recommender) (query : Option String) (subject : Option String)
    (level : Option String) (min_rating : ℚ) : List Course :=
  let df := r.courses
  let df := match query with
    | some q =>
      if q ≠ "" ∧ pyStrip q ≠ "" then
        df.filter (fun c =>
          strContainsCI c.title q || strContainsCI c.description q ||
            strContainsCI c.subject q)
      else df
    | none => df
  let df := match subject with
    | some s => if s ≠ "" ∧ s ≠ "All" then df.filter (fun c => c.subject == s) else df
    | none => df
  let df := match level with
    | some s => if s ≠ "" ∧ s ≠ "All" then df.filter (fun c => c.level == s) else df
    | none => df
  if 0 < min_rating then df.filter (fun c => decide (min_rating ≤ c.rating)) else df

/-- Python sorted() on strings: stable sort by the lexicographic order on
code points. -/
def pySortedStrings (l : List String) : List String :=
  List.insertionSort (fun a b : String => a ≤ b) l

/-- get_all_courses: sorted(courses_df['title'].tolist()) — note: no
de-duplication in the source. -/
def get_all_courses (r : Recommender) : List String :=
  pySortedStrings (r.courses.map (fun c => c.title))

/-- get_all_users: sorted(interactions_df['user_id'].unique().tolist()). -/
def get_all_users (r : Recommender) : List String :=
  pySortedStrings (dedupKeepFirst (r.interactions.map (fun it => it.user_id)))

/-- get_all_subjects: sorted(courses_df['subject'].unique().tolist()). -/
def get_all_subjects (r : Recommender) : List String :=
  pySortedStrings (dedupKeepFirst (r.courses.map (fun c => c.subject)))

/-- get_all_levels: sorted(courses_df['level'].unique().tolist()). -/
def get_all_levels (r : Recommender) : List String :=
  pySortedStrings (dedupKeepFirst (r.courses.map (fun c => c.level)))

/-- get_course_details: the first course whose title equals the argument
exactly (case-sensitive), as a full record; None when there is no match. -/
def get_course_details (r : Recommender) (course_title : String) : Option Course :=
  r.courses.find? (fun c => c.title == course_title)

/-- State-passing reading of get_course_details: the method only reads
self.courses_df, so the engine comes back unchanged. -/
def get_course_details_st (r : Recommender) (course_title : String) :
    Option Course × Recommender :=
  (get_course_details r course_title, r)

/-- The exception classes the constructor can surface, from the source: the
re-raised FileNotFoundError of the CSV loads, and the ValueError raised by
the external sklearn vectorizer.  No other exception type is raised on the
construction path, and in particular no EmptyCorpusError class exists
anywhere in the repository. -/
inductive ConstructError where
  | fileNotFoundError (msg : String)
  | valueError (msg : String)
deriving DecidableEq

/-- Normalization of a course row by _prepare_data: the id is stripped (the
text fillna defaulting is already reflected in the record type). -/
def normCourse (c : Course) : Course := { c with course_id := pyStrip c.course_id }

/-- Normalization of an interaction row by _prepare_data: user and course
ids are stripped. -/
def normInteraction (it : Interaction) : Interaction :=
  { it with user_id := pyStrip it.user_id, course_id := pyStrip it.course_id }

/-- The construction path __init__ → _prepare_data, with the files already
parsed into rows.  The TF-IDF vectorization is the external
TfidfVectorizer(stop_words='english', max_features=500).fit_transform,
which raises ValueError("empty vocabulary; ...") when it receives zero
documents; it can also raise on a non-empty corpus whose tokens are all
stop words, so this model is optimistic on the success branch, which only
strengthens the only-if direction proved about it.  The numeric similarity
matrix the library computes on success is supplied as sim. -/
def construct (courses : List Course) (interactions : List Interaction)
    (sim : List (List ℚ)) : Except ConstructError Recommender :=
  if courses.isEmpty then
    Except.error (ConstructError.valueError
      "empty vocabulary; perhaps the documents only contain stop words")
  else
    Except.ok { courses := courses.map normCourse
                interactions := interactions.map normInteraction
                simMatrix := sim }

/-- Dot product of two rational vectors (trailing entries of the longer
vector are ignored, as both always have the vocabulary length). -/
def dotp (u v : List ℚ) : ℚ := (List.zipWith (fun a b => a * b) u v).sum

/-- Cosine similarity as computed by sklearn.metrics.pairwise
cosine_similarity: the dot product of the two L2-normalized rows.  The
library's normalize leaves a zero row unchanged (it substitutes 1 for a
zero norm), so a zero vector has similarity 0 with everything, itself
included; over ℝ with the division-by-zero-is-zero convention the bare
formula below has exactly that behaviour. -/
noncomputable def cosineSim (u v : List ℚ) : ℝ :=
  ((dotp u v : ℚ) : ℝ) / (Real.sqrt ((dotp u u : ℚ) : ℝ) * Real.sqrt ((dotp v v : ℚ) : ℝ))

/-- The similarity matrix produced at construction from the TF-IDF feature
rows: entry (i, j) is the cosine similarity of rows i and j. -/
noncomputable def similarity_matrix (vecs : List (List ℚ)) : List (List ℝ) :=
  vecs.map (fun u => vecs.map (fun v => cosineSim u v))

/-- Entry (i, j) of the similarity matrix. -/
noncomputable def simEntry (vecs : List (List ℚ)) (i j : ℕ) : ℝ :=
  ((similarity_matrix vecs).getD i []).getD j 0

/-- The comparison of the amended user ranking: descending rounded score,
ties broken by ascending original item index. -/
def lexLt (a b : ℕ × ℚ) : Prop :=
  pyRound b.2 3 < pyRound a.2 3 ∨ (pyRound a.2 3 = pyRound b.2 3 ∧ a.1 ≤ b.1)

instance : DecidableRel lexLt :=
  fun a b => inferInstanceAs
    (Decidable (pyRound b.2 3 < pyRound a.2 3 ∨ (pyRound a.2 3 = pyRound b.2 3 ∧ a.1 ≤ b.1)))

/-- Stated from the spec's words (amended): rank the candidate (index,
score) pairs by descending rounded aggregate score with ties broken by
ascending original item index, then annotate and take the first top_n. -/
def spec_user_ranking (r : Recommender) (taken : List String) (liked_indices : List ℕ)
    (top_n : ℤ) : List Recommendation :=
  pySlice ((List.insertionSort lexLt (user_candidates r taken liked_indices)).map (mkOf r))
    0 top_n

/-- The spec-side reading of recommend_from_liked, using spec_user_ranking. -/
def spec_recommend_from_liked (r : Recommender) (user_courses liked_courses : List Interaction)
    (top_n : ℤ) : List Recommendation :=
  let liked_course_ids := dedupKeepFirst (liked_courses.map (fun it => it.course_id))
  let liked_indices := liked_course_ids.filterMap (course_id_to_idx r.courses)
  if liked_indices.isEmpty then []
  else
    let taken := user_courses.map (fun it => it.course_id)
    spec_user_ranking r taken liked_indices top_n

/-- The spec-side reading of recommend_by_user: identical selection of the
user's interactions and of the liked subset, spec-side ranking. -/
def spec_recommend_by_user (r : Recommender) (user_id : String) (top_n : ℤ) :
    List Recommendation :=
  let uid := pyStrip user_id
  let user_courses := r.interactions.filter (fun it => it.user_id == uid)
  if user_courses.isEmpty then []
  else
    let liked0 := user_courses.filter (fun it => decide ((4.5 : ℚ) ≤ it.rating))
    let liked_courses := if liked0.isEmpty then user_courses else liked0
    spec_recommend_from_liked r user_courses liked_courses top_n

/-! Helper lemmas. -/

theorem find?_eq_head?_filter {α : Type} (p : α → Bool) (l : List α) :
    l.find? p = (l.filter p).head? := by
  induction l with
  | nil => rfl
  | cons a l ih =>
    cases h : p a with
    | true =>
      rw [List.find?_cons_of_pos _ h, List.filter_cons_of_pos (by simp [h]), List.head?_cons]
    | false =>
      rw [List.find?_cons_of_neg _ (by simp [h]), List.filter_cons_of_neg (by simp [h]), ih]

theorem mem_of_mem_pySlice {α : Type} {a : α} {l : List α} {s e : ℤ}
    (h : a ∈ pySlice l s e) : a ∈ l := by
  simp only [pySlice] at h
  exact (List.drop_sublist _ _).subset ((List.take_sublist _ _).subset h)

theorem pySlice_stop_le_start {α : Type} (l : List α) (start stop : ℤ)
    (h0 : 0 ≤ stop) (h : stop ≤ start) : pySlice l start stop = [] := by
  simp only [pySlice]
  rw [if_neg (not_lt.mpr (le_trans h0 h)), if_neg (not_lt.mpr h0)]
  have hm : min stop (l.length : ℤ) ≤ min start (l.length : ℤ) := min_le_min h le_rfl
  rw [Int.toNat_eq_zero.mpr (by omega), List.take_zero]

theorem pySlice_one_of_le {α : Type} (l : List α) (stop : ℤ)
    (h : (l.length : ℤ) ≤ stop) (h0 : 0 < l.length) : pySlice l 1 stop = l.drop 1 := by
  simp only [pySlice]
  have h1 : (1 : ℤ) ≤ (l.length : ℤ) := by exact_mod_cast h0
  rw [if_neg (by omega), if_neg (by omega), min_eq_left h1, min_eq_right h]
  have h2 : ((l.length : ℤ) - 1).toNat = l.length - 1 := by omega
  have h3 : ((1 : ℤ)).toNat = 1 := rfl
  rw [h3, h2]
  exact List.take_of_length_le (by simp)

theorem pySlice_zero_of_le {α : Type} (l : List α) (stop : ℤ)
    (h : (l.length : ℤ) ≤ stop) : pySlice l 0 stop = l := by
  simp only [pySlice]
  have h1 : (0 : ℤ) ≤ (l.length : ℤ) := by positivity
  rw [if_neg (by omega), if_neg (by omega), min_eq_left h1, min_eq_right h]
  simp

/-! Concrete data used by witnesses, counterexamples and failing-input
evaluations.  All of it is well within what the program accepts: distinct
titles, plausible similarity values (rows of cosine similarities), and
small interaction tables. -/

/-- Sample course for construction: any single well-formed row. -/
def cW9 : Course := ⟨"A", "T", "S", "L", "D", 4, 10, 1, 0⟩

/-- Course whose combined text is "python python ...": TF-IDF direction equal
to that of cW1b, hence cosine similarity exactly 1 between the two. -/
def cW1a : Course := ⟨"C1", "python python", "", "", "", 0, 0, 0, 0⟩

/-- Course titled "python": the seed of the C1 failing input. -/
def cW1b : Course := ⟨"C2", "python", "", "", "", 0, 0, 0, 0⟩

/-- Engine of the C1 failing input: two courses whose texts vectorize to the
same direction, so the similarity matrix is all ones. -/
def rW1 : Recommender := ⟨[cW1a, cW1b], [], [[1, 1], [1, 1]]⟩

/-- Course A of the small two-course engine. -/
def cWA : Course := ⟨"A", "TA", "", "", "", 0, 0, 0, 0⟩

/-- Course B of the small two-course engine. -/
def cWB : Course := ⟨"B", "TB", "", "", "", 0, 0, 0, 0⟩

/-- An interaction of user v with course A rated 3.0 (below the liked
threshold). -/
def iV : Interaction := ⟨"v", "A", 3, "", ""⟩

/-- Engine for the C4 witness: one course, one lukewarm interaction. -/
def rV : Recommender := ⟨[cWA], [iV], [[1]]⟩

/-! Claims C9, C10, C4. -/

/-- C9 (amended): construction on an empty item table fails — with the
ValueError raised by the external vectorizer, there being no EmptyCorpusError
anywhere in the code — and no engine is produced; a successful construction
is only possible from a non-empty item table. -/
theorem claim_C9_construction_empty (cs : List Course) (is : List Interaction)
    (sim : List (List ℚ)) :
    (cs = [] → construct cs is sim = Except.error (ConstructError.valueError
      "empty vocabulary; perhaps the documents only contain stop words")) ∧
    (∀ r : Recommender, construct cs is sim = Except.ok r → cs ≠ []) := by
  constructor
  · intro h
    subst h
    rfl
  · intro r hok hnil
    subst hnil
    exact absurd hok (by simp [construct])

/-- Witness for C9: a one-course table constructs successfully, hence is
non-empty; instantiates both implications of the amended claim. -/
theorem claim_C9_witness :
    construct [cW9] [] [] = Except.ok ⟨[normCourse cW9], [], []⟩ ∧
    [cW9] ≠ ([] : List Course) := by
  constructor
  · rfl
  · exact (claim_C9_construction_empty [cW9] [] []).2 _ rfl

/-- Counterexample for C9 as stated: on the empty item table the constructor
surfaces the library's ValueError — the error space of the construction path
(ConstructError) has no EmptyCorpusError at all. -/
theorem claim_C9_counterexample :
    construct ([] : List Course) [] [] = Except.error (ConstructError.valueError
      "empty vocabulary; perhaps the documents only contain stop words") := rfl

/-- C10: get_course_details returns None exactly when no course title equals
the argument (case-sensitive), otherwise the first matching record in
original order, and the engine state is returned unchanged. -/
theorem claim_C10_details (r : Recommender) (t : String) :
    (get_course_details r t = none ↔ ∀ c ∈ r.courses, c.title ≠ t) ∧
    get_course_details r t = (r.courses.filter (fun c => c.title == t)).head? ∧
    (get_course_details_st r t).2 = r := by
  refine ⟨?_, find?_eq_head?_filter _ _, rfl⟩
  simp [get_course_details, List.find?_eq_none]

/-- C4: when the user's liked subset (rating at least 4.5) is empty, the
output of recommend_by_user is exactly the ranking computed with the user's
entire interaction set as the liked subset. -/
theorem claim_C4_liked_fallback (r : Recommender) (uid : String) (topN : ℤ)
    (h : (r.interactions.filter (fun it => it.user_id == pyStrip uid)).filter
      (fun it => decide ((4.5 : ℚ) ≤ it.rating)) = []) :
    recommend_by_user r uid topN =
      recommend_from_liked r (r.interactions.filter (fun it => it.user_id == pyStrip uid))
        (r.interactions.filter (fun it => it.user_id == pyStrip uid)) topN := by
  simp only [recommend_by_user, h]
  by_cases hne : (r.interactions.filter (fun it => it.user_id == pyStrip uid)).isEmpty
  · rw [if_pos hne, List.isEmpty_iff.mp hne]
    simp [recommend_from_liked, dedupKeepFirst]
  · rw [if_neg hne]
    simp

/-- Witness for C4: user v has one interaction rated 3.0, so the liked subset
is empty and the fallback equality is instantiated. -/
theorem claim_C4_witness :
    ((rV.interactions.filter (fun it => it.user_id == pyStrip "v")).filter
      (fun it => decide ((4.5 : ℚ) ≤ it.rating)) = []) ∧
    recommend_by_user rV "v" 5 =
      recommend_from_liked rV (rV.interactions.filter (fun it => it.user_id == pyStrip "v"))
        (rV.interactions.filter (fun it => it.user_id == pyStrip "v")) 5 := by
  have hval : (rV.interactions.filter (fun it => it.user_id == pyStrip "v")).filter
      (fun it => decide ((4.5 : ℚ) ≤ it.rating)) = [] := by
    norm_num [rV, iV, List.filter, show pyStrip "v" = "v" from by decide]
  exact ⟨hval, claim_C4_liked_fallback rV "v" 5 hval⟩

/-! Claim C1. -/

/-- C1, evaluation at the failing input: with a duplicate-direction course at
a lower index (similarity to the seed exactly 1.0), recommend_by_course
returns the seed itself — the sorted list starts with the index-0 duplicate
because Python's sort is stable, and the slice [1:top_n+1] drops the
duplicate instead of the seed.  The single returned entry carries the seed's
own title. -/
theorem claim_C1_seed_returned :
    recommend_by_course rW1 "python" 5 = [mkRecommendation cW1b 1] ∧
    (mkRecommendation cW1b 1).title = "python" := by
  constructor
  · norm_num [recommend_by_course, rW1, cW1a, cW1b, simRow, mkOf, pySlice,
      List.insertionSort, List.orderedInsert, scoreGe, List.findIdx?, List.enum,
      List.enumFrom, show ("python python" = "python") = False from by decide]
    rfl
  · rfl

/-! Claim C6. -/

/-- C6 (amended): for top_n equal to 0 or -1 the result of
recommend_by_course is empty (for top_n at most -2, Python's negative slice
bound applies instead and the result need not be empty), and whenever the
seed is found and top_n is at least the length of the seed's similarity row,
the result consists of every entry except the first sorted one — all
available items, with no error. -/
theorem claim_C6_topn_edges (r : Recommender) (t : String) (topN : ℤ) :
    ((topN = 0 ∨ topN = -1) → recommend_by_course r t topN = []) ∧
    (∀ ci, r.courses.findIdx? (fun c => c.title == t) = some ci →
      0 < (simRow r ci).length → ((simRow r ci).length : ℤ) ≤ topN →
      (recommend_by_course r t topN).length = (simRow r ci).length - 1) := by
  constructor
  · intro h
    cases hf : r.courses.findIdx? (fun c => c.title == t) with
    | none => simp only [recommend_by_course, hf]
    | some ci =>
      have hs : pySlice (List.insertionSort scoreGe (simRow r ci).enum) 1 (topN + 1) = [] := by
        rcases h with h | h <;> subst h
        · exact pySlice_stop_le_start _ _ _ (by norm_num) (by norm_num)
        · exact pySlice_stop_le_start _ _ _ (by norm_num) (by norm_num)
      simp only [recommend_by_course, hf, hs, List.map_nil]
  · intro ci hf h0 hle
    have hlen : (List.insertionSort scoreGe (simRow r ci).enum).length
        = (simRow r ci).length := by
      rw [(List.perm_insertionSort scoreGe _).length_eq, List.enum_length]
    have h1 : ((List.insertionSort scoreGe (simRow r ci).enum).length : ℤ) ≤ topN + 1 := by
      rw [hlen]; omega
    have h2 : 0 < (List.insertionSort scoreGe (simRow r ci).enum).length := by
      rw [hlen]; omega
    simp only [recommend_by_course, hf]
    rw [List.length_map, pySlice_one_of_le _ _ h1 h2, List.length_drop, hlen]

/-- Course T0 of the three-course engine. -/
def cT0 : Course := ⟨"X0", "T0", "", "", "", 0, 0, 0, 0⟩

/-- Course T1 of the three-course engine. -/
def cT1 : Course := ⟨"X1", "T1", "", "", "", 0, 0, 0, 0⟩

/-- Course T2 of the three-course engine. -/
def cT2 : Course := ⟨"X2", "T2", "", "", "", 0, 0, 0, 0⟩

/-- Three pairwise-dissimilar courses: identity similarity matrix. -/
def rW6 : Recommender := ⟨[cT0, cT1, cT2], [], [[1, 0, 0], [0, 1, 0], [0, 0, 1]]⟩

/-- Witness for C6: top_n = 0 gives the empty result, and top_n = 5 on a
two-entry row returns the single available item. -/
theorem claim_C6_witness :
    recommend_by_course rW1 "python" 0 = [] ∧
    (recommend_by_course rW1 "python" 5).length = (simRow rW1 1).length - 1 := by
  constructor
  · exact (claim_C6_topn_edges rW1 "python" 0).1 (Or.inl rfl)
  · exact (claim_C6_topn_edges rW1 "python" 5).2 1 (by decide) (by decide) (by decide)

/-- Counterexample for C6 as stated: top_n = -2 is at most 0, yet the result
is not empty — Python's slice sim_scores[1:-1] keeps the middle entry. -/
theorem claim_C6_counterexample :
    recommend_by_course rW6 "T0" (-2) = [mkRecommendation cT1 0] ∧ (-2 : ℤ) ≤ 0 := by
  constructor
  · norm_num [recommend_by_course, rW6, cT0, cT1, cT2, simRow, mkOf, pySlice,
      List.insertionSort, List.orderedInsert, scoreGe, List.findIdx?, List.enum,
      List.enumFrom, show ("T1" = "T0") = False from by decide,
      show ("T2" = "T0") = False from by decide]
  · norm_num

/-! Claim C8. -/

theorem dedup_aux_nodup (l acc : List String) (h : acc.Nodup) :
    (l.foldl (fun acc a => if a ∈ acc then acc else acc ++ [a]) acc).Nodup := by
  induction l generalizing acc with
  | nil => exact h
  | cons a l ih =>
    simp only [List.foldl_cons]
    by_cases ha : a ∈ acc
    · rw [if_pos ha]; exact ih _ h
    · rw [if_neg ha]
      exact ih _ (by simp [List.nodup_append, h, ha])

theorem nodup_dedupKeepFirst (l : List String) : (dedupKeepFirst l).Nodup :=
  dedup_aux_nodup l [] (by simp)

/-- C8 (amended): all four enumeration helpers return lists sorted in
ascending order; get_all_users, get_all_subjects and get_all_levels are
de-duplicated, while get_all_courses returns every title with its original
multiplicity (the source applies no unique() there), hence is de-duplicated
only when the titles happen to be distinct. -/
theorem claim_C8_enumerations (r : Recommender) :
    List.Sorted (fun a b : String => a ≤ b) (get_all_courses r) ∧
    (get_all_courses r).Perm (r.courses.map (fun c => c.title)) ∧
    (List.Sorted (fun a b : String => a ≤ b) (get_all_users r) ∧ (get_all_users r).Nodup) ∧
    (List.Sorted (fun a b : String => a ≤ b) (get_all_subjects r) ∧
      (get_all_subjects r).Nodup) ∧
    (List.Sorted (fun a b : String => a ≤ b) (get_all_levels r) ∧ (get_all_levels r).Nodup) :=
  ⟨List.sorted_insertionSort _ _,
   List.perm_insertionSort _ _,
   ⟨List.sorted_insertionSort _ _,
    (List.perm_insertionSort _ _).nodup_iff.mpr (nodup_dedupKeepFirst _)⟩,
   ⟨List.sorted_insertionSort _ _,
    (List.perm_insertionSort _ _).nodup_iff.mpr (nodup_dedupKeepFirst _)⟩,
   ⟨List.sorted_insertionSort _ _,
    (List.perm_insertionSort _ _).nodup_iff.mpr (nodup_dedupKeepFirst _)⟩⟩

/-- Two different courses sharing the title "T". -/
def rDup : Recommender := ⟨[⟨"A", "T", "", "", "", 0, 0, 0, 0⟩,
  ⟨"B", "T", "", "", "", 0, 0, 0, 0⟩], [], [[1, 1], [1, 1]]⟩

/-- Counterexample for C8 as stated: with two courses titled "T",
get_all_courses returns the duplicate-carrying list ["T", "T"]. -/
theorem claim_C8_counterexample :
    get_all_courses rDup = ["T", "T"] ∧ ¬ (get_all_courses rDup).Nodup := by
  have h : get_all_courses rDup = ["T", "T"] := by
    simp [get_all_courses, pySortedStrings, rDup, List.insertionSort, List.orderedInsert]
  refine ⟨h, ?_⟩
  rw [h]
  simp

/-! Claim C3. -/

theorem not_taken_of_mem_from_liked (r : Recommender) (uc lc : List Interaction) (topN : ℤ)
    (rec : Recommendation) (h : rec ∈ recommend_from_liked r uc lc topN) :
    ∀ it ∈ uc, rec.course_id ≠ it.course_id := by
  intro it hit hEq
  simp only [recommend_from_liked] at h
  by_cases h0 : ((dedupKeepFirst (lc.map (fun x => x.course_id))).filterMap
      (course_id_to_idx r.courses)).isEmpty = true
  · rw [if_pos h0] at h
    exact absurd h (List.not_mem_nil _)
  · rw [if_neg h0] at h
    have h1 := mem_of_mem_pySlice h
    rw [List.mem_insertionSort, List.mem_map] at h1
    obtain ⟨p, hp, hrec⟩ := h1
    simp only [user_candidates, List.mem_filterMap] at hp
    obtain ⟨j, hj, hjp⟩ := hp
    by_cases hg : (r.courses.getD j default).course_id ∈ uc.map (fun x => x.course_id)
    · rw [if_pos hg] at hjp
      exact absurd hjp (by simp)
    · rw [if_neg hg] at hjp
      injection hjp with hjp2
      apply hg
      rw [List.mem_map]
      refine ⟨it, hit, ?_⟩
      have hcid : rec.course_id = (r.courses.getD j default).course_id := by
        rw [← hrec, ← hjp2]
        rfl
      rw [← hcid, hEq]

/-- C3: no entry of recommend_by_user carries the id of any item the user
has interacted with, regardless of the interaction's rating. -/
theorem claim_C3_excludes_history (r : Recommender) (uid : String) (topN : ℤ)
    (rec : Recommendation) (hrec : rec ∈ recommend_by_user r uid topN)
    (it : Interaction) (hit : it ∈ r.interactions) (hu : it.user_id = pyStrip uid) :
    rec.course_id ≠ it.course_id := by
  simp only [recommend_by_user] at hrec
  by_cases h1 : (r.interactions.filter (fun x => x.user_id == pyStrip uid)).isEmpty = true
  · rw [if_pos h1] at hrec
    exact absurd hrec (List.not_mem_nil _)
  · rw [if_neg h1] at hrec
    exact not_taken_of_mem_from_liked r _ _ topN rec hrec it
      (List.mem_filter.mpr ⟨hit, by simp [hu]⟩)

/-- Interaction of user u with course A, rated 5.0. -/
def iU : Interaction := ⟨"u", "A", 5, "", ""⟩

/-- Engine for the C3 witness: user u has interacted with course A only. -/
def rW3 : Recommender := ⟨[cWA, cWB], [iU], [[1, 1/2], [1/2, 1]]⟩

/-- Witness for C3: the single recommendation for user u is course B, and
its id differs from the id of the interacted course A. -/
theorem claim_C3_witness :
    (mkRecommendation cWB (1/2) ∈ recommend_by_user rW3 "u" 5) ∧
    iU ∈ rW3.interactions ∧ iU.user_id = pyStrip "u" ∧
    (mkRecommendation cWB (1/2)).course_id ≠ iU.course_id := by
  have hcomp : recommend_by_user rW3 "u" 5 = [mkRecommendation cWB (1/2)] := by
    norm_num [recommend_by_user, recommend_from_liked, rW3, cWA, cWB, iU, simRow, mkOf,
      user_candidates, aggregate_score, course_id_to_idx, dedupKeepFirst, pySlice,
      List.insertionSort, List.orderedInsert, recGe, List.filter, List.filterMap,
      List.foldl, List.find?,
      show pyStrip "u" = "u" from by decide,
      show List.range 2 = [0, 1] from by decide,
      show (("B" : String) == "A") = false from by decide,
      show (("A" : String) == "A") = true from by decide,
      show ("B" = "A") = False from by decide]
  refine ⟨by simp [hcomp], by simp [rW3], by decide, ?_⟩
  exact claim_C3_excludes_history rW3 "u" 5 _ (by simp [hcomp]) iU (by simp [rW3, iU])
    (by decide)

/-! Claim C7. -/

theorem reMatchAt_eq_litStarts (pat : List Char) (h : ∀ c ∈ pat, c ≠ '.') :
    ∀ text, reMatchAt pat text = litStarts pat text := by
  induction pat with
  | nil => intro text; cases text <;> rfl
  | cons p ps ih =>
    intro text
    cases text with
    | nil => rfl
    | cons t ts =>
      have hp : p ≠ '.' := h p (by simp)
      have ih2 := ih (fun c hc => h c (by simp [hc])) ts
      simp only [reMatchAt, litStarts, if_neg hp, ih2]

theorem reSearch_eq_litSub (pat : List Char) (h : ∀ c ∈ pat, c ≠ '.') :
    ∀ text, reSearch pat text = litSub pat text := by
  intro text
  induction text with
  | nil =>
    simp only [reSearch, litSub]
    exact reMatchAt_eq_litStarts pat h []
  | cons t ts ih =>
    simp only [reSearch, litSub, ih, reMatchAt_eq_litStarts pat h]

theorem strContains_eq_substr (s q : String) (h : ∀ c ∈ q.data.map Char.toLower, c ≠ '.') :
    strContainsCI s q = substrCI s q :=
  reSearch_eq_litSub _ h _

/-- The query mask of search_courses, stated with the literal substring test. -/
def queryOK (q : String) (c : Course) : Bool :=
  substrCI c.title q || substrCI c.description q || substrCI c.subject q

/-- The subject filter of search_courses as a single predicate. -/
def subjOK (subj : Option String) (c : Course) : Bool :=
  match subj with
  | some s => if s ≠ "" ∧ s ≠ "All" then c.subject == s else true
  | none => true

/-- The level filter of search_courses as a single predicate. -/
def lvlOK (lvl : Option String) (c : Course) : Bool :=
  match lvl with
  | some s => if s ≠ "" ∧ s ≠ "All" then c.level == s else true
  | none => true

/-- The minimum-rating filter of search_courses as a single predicate. -/
def ratingOK (mr : ℚ) (c : Course) : Bool :=
  if 0 < mr then decide (mr ≤ c.rating) else true

theorem subj_stage (subj : Option String) (df : List Course) :
    (match subj with
      | some s => if s ≠ "" ∧ s ≠ "All" then df.filter (fun c => c.subject == s) else df
      | none => df) = df.filter (fun c => subjOK subj c) := by
  cases subj with
  | none => simp [subjOK]
  | some s =>
    show (if s ≠ "" ∧ s ≠ "All" then df.filter (fun c => c.subject == s) else df) =
      df.filter (fun c => subjOK (some s) c)
    by_cases hs : s ≠ "" ∧ s ≠ "All"
    · rw [if_pos hs]
      apply List.filter_congr
      intro c hc
      simp [subjOK, hs]
    · rw [if_neg hs]
      have h : ∀ c ∈ df, subjOK (some s) c = true := by
        intro c hc
        simp [subjOK, hs]
      exact (List.filter_eq_self.mpr h).symm

theorem lvl_stage (lvl : Option String) (df : List Course) :
    (match lvl with
      | some s => if s ≠ "" ∧ s ≠ "All" then df.filter (fun c => c.level == s) else df
      | none => df) = df.filter (fun c => lvlOK lvl c) := by
  cases lvl with
  | none => simp [lvlOK]
  | some s =>
    show (if s ≠ "" ∧ s ≠ "All" then df.filter (fun c => c.level == s) else df) =
      df.filter (fun c => lvlOK (some s) c)
    by_cases hs : s ≠ "" ∧ s ≠ "All"
    · rw [if_pos hs]
      apply List.filter_congr
      intro c hc
      simp [lvlOK, hs]
    · rw [if_neg hs]
      have h : ∀ c ∈ df, lvlOK (some s) c = true := by
        intro c hc
        simp [lvlOK, hs]
      exact (List.filter_eq_self.mpr h).symm

theorem rating_stage (mr : ℚ) (df : List Course) :
    (if 0 < mr then df.filter (fun c => decide (mr ≤ c.rating)) else df) =
      df.filter (fun c => ratingOK mr c) := by
  by_cases h : 0 < mr
  · rw [if_pos h]
    apply List.filter_congr
    intro c hc
    simp [ratingOK, h]
  · rw [if_neg h]
    have hh : ∀ c ∈ df, ratingOK mr c = true := by
      intro c hc
      simp [ratingOK, h]
    exact (List.filter_eq_self.mpr hh).symm

/-- C7 (amended): for a query that is non-empty after stripping and whose
case-lowered text contains no regular-expression metacharacter, search_courses
returns exactly the courses whose title, description or subject contains the
query as a case-insensitive literal substring, conjoined with the subject,
level and minimum-rating filters.  (For other queries the source's
Series.str.contains treats the query as a regular expression, not as a
literal substring.) -/
theorem claim_C7_search (r : Recommender) (q : String) (subj lvl : Option String) (mr : ℚ)
    (hq : q ≠ "" ∧ pyStrip q ≠ "")
    (hmeta : ∀ c ∈ q.data.map Char.toLower, c ∉ metaChars) :
    search_courses r (some q) subj lvl mr =
      r.courses.filter (fun c =>
        queryOK q c && subjOK subj c && lvlOK lvl c && ratingOK mr c) := by
  have hdot : ∀ c ∈ q.data.map Char.toLower, c ≠ '.' := by
    intro c hc hcd
    exact hmeta c hc (by rw [hcd]; decide)
  simp only [search_courses, if_pos hq]
  have h1 : r.courses.filter (fun c =>
        strContainsCI c.title q || strContainsCI c.description q ||
          strContainsCI c.subject q) =
      r.courses.filter (fun c => queryOK q c) := by
    apply List.filter_congr
    intro c hc
    simp [queryOK, strContains_eq_substr _ _ hdot]
  rw [h1, subj_stage, lvl_stage, rating_stage, List.filter_filter, List.filter_filter,
    List.filter_filter]
  apply List.filter_congr
  intro c hc
  cases hA : queryOK q c <;> cases hB : subjOK subj c <;> cases hC : lvlOK lvl c <;>
    cases hD : ratingOK mr c <;> simp [hA, hB, hC, hD]

/-- The course matched by the C7 witness query. -/
def cPy : Course := ⟨"P", "Python Basics", "CS", "", "learn python", 4, 0, 0, 0⟩

/-- One-course engine for the C7 witness. -/
def rW7 : Recommender := ⟨[cPy], [], [[1]]⟩

/-- Witness for C7: the query "py" is non-empty and metacharacter-free, and
the search equality is instantiated on a concrete engine. -/
theorem claim_C7_witness :
    (("py" : String) ≠ "" ∧ pyStrip "py" ≠ "") ∧
    (∀ c ∈ ("py" : String).data.map Char.toLower, c ∉ metaChars) ∧
    search_courses rW7 (some "py") none none 0 =
      rW7.courses.filter (fun c =>
        queryOK "py" c && subjOK none c && lvlOK none c && ratingOK 0 c) :=
  ⟨⟨by decide, by decide⟩, by decide,
    claim_C7_search rW7 "py" none none 0 ⟨by decide, by decide⟩ (by decide)⟩

/-- A course titled "abc". -/
def cAbc : Course := ⟨"Z", "abc", "", "", "", 0, 0, 0, 0⟩

/-- One-course engine for the C7 counterexample. -/
def rRex : Recommender := ⟨[cAbc], [], [[1]]⟩

/-- Counterexample for C7 as stated: the query "a.c" is matched by the code
against the title "abc" (the dot is a regex wildcard in Series.str.contains),
although "a.c" is not a literal substring of "abc". -/
theorem claim_C7_counterexample :
    search_courses rRex (some "a.c") none none 0 = [cAbc] ∧
    substrCI "abc" "a.c" = false := by
  constructor
  · norm_num [search_courses, rRex, cAbc, List.filter,
      show (("a.c" : String) ≠ "") from by decide,
      show (pyStrip "a.c" ≠ "") from by decide,
      show strContainsCI "abc" "a.c" = true from by decide]
  · decide

/-! Claim C5. -/

theorem orderedInsert_comm_map (r : Recommender) (a : ℕ × ℚ) (m : List (ℕ × ℚ))
    (h : ∀ b ∈ m, a.1 < b.1) :
    List.orderedInsert recGe (mkOf r a) (m.map (mkOf r)) =
      (List.orderedInsert lexLt a m).map (mkOf r) := by
  induction m with
  | nil => rfl
  | cons b m ih =>
    have hab : a.1 < b.1 := h b (by simp)
    have key : recGe (mkOf r a) (mkOf r b) ↔ lexLt a b := by
      show pyRound b.2 3 ≤ pyRound a.2 3 ↔ _
      constructor
      · intro hle
        rcases eq_or_lt_of_le hle with heq | hlt
        · exact Or.inr ⟨heq.symm, hab.le⟩
        · exact Or.inl hlt
      · rintro (hlt | ⟨heq, h2⟩)
        · exact hlt.le
        · exact le_of_eq heq.symm
    simp only [List.map_cons, List.orderedInsert]
    by_cases hd : lexLt a b
    · rw [if_pos hd, if_pos (key.mpr hd), List.map_cons, List.map_cons]
    · rw [if_neg hd, if_neg (fun hc => hd (key.mp hc)), List.map_cons,
        ih (fun x hx => h x (by simp [hx]))]

theorem insertionSort_comm_map (r : Recommender) (l : List (ℕ × ℚ))
    (hl : List.Pairwise (fun a b : ℕ × ℚ => a.1 < b.1) l) :
    List.insertionSort recGe (l.map (mkOf r)) =
      (List.insertionSort lexLt l).map (mkOf r) := by
  induction l with
  | nil => rfl
  | cons a l ih =>
    simp only [List.map_cons, List.insertionSort]
    rw [ih hl.of_cons]
    exact orderedInsert_comm_map r a _ (fun b hb =>
      (List.pairwise_cons.mp hl).1 b ((List.mem_insertionSort lexLt).mp hb))

theorem user_candidates_pairwise (r : Recommender) (taken : List String) (li : List ℕ) :
    List.Pairwise (fun a b : ℕ × ℚ => a.1 < b.1) (user_candidates r taken li) := by
  unfold user_candidates
  refine List.Pairwise.filterMap _ ?_ (List.pairwise_lt_range _)
  intro a a' haa b hb b' hb'
  by_cases ha : (r.courses.getD a default).course_id ∈ taken
  · rw [if_pos ha] at hb
    exact absurd hb (by simp)
  · rw [if_neg ha] at hb
    by_cases ha' : (r.courses.getD a' default).course_id ∈ taken
    · rw [if_pos ha'] at hb'
      exact absurd hb' (by simp)
    · rw [if_neg ha'] at hb'
      simp only [Option.mem_def, Option.some.injEq] at hb hb'
      rw [← hb, ← hb']
      exact haa

theorem from_liked_eq_spec (r : Recommender) (uc lc : List Interaction) (topN : ℤ) :
    recommend_from_liked r uc lc topN = spec_recommend_from_liked r uc lc topN := by
  simp only [recommend_from_liked, spec_recommend_from_liked, spec_user_ranking]
  by_cases h : ((dedupKeepFirst (lc.map (fun it => it.course_id))).filterMap
      (course_id_to_idx r.courses)).isEmpty = true
  · rw [if_pos h, if_pos h]
  · rw [if_neg h, if_neg h,
      insertionSort_comm_map r _ (user_candidates_pairwise r _ _)]

/-- C5 (amended): recommend_by_user ranks its candidates by descending
similarity_score as stored in the result dicts — the aggregate score rounded
to 3 decimals, not the raw aggregate — with ties in the rounded score broken
by ascending original item index (stable sort over the index-ordered
candidate list); the result equals the spec-side ranking built that way. -/
theorem claim_C5_ranking (r : Recommender) (uid : String) (topN : ℤ) :
    recommend_by_user r uid topN = spec_recommend_by_user r uid topN := by
  simp only [recommend_by_user, spec_recommend_by_user]
  by_cases h : (r.interactions.filter (fun it => it.user_id == pyStrip uid)).isEmpty = true
  · rw [if_pos h, if_pos h]
  · rw [if_neg h, if_neg h]
    exact from_liked_eq_spec r _ _ topN

/-- Course C of the C5 counterexample engine. -/
def cWC : Course := ⟨"C", "TC", "", "", "", 0, 0, 0, 0⟩

/-- Engine for the C5 counterexample: user u liked course A; the aggregate
scores of candidates B and C are 0.1231 and 0.1234, which both round to
0.123. -/
def rC5 : Recommender :=
  ⟨[cWA, cWB, cWC], [iU], [[1, 1231/10000, 1234/10000], [0, 0, 0], [0, 0, 0]]⟩

/-- Counterexample for C5 as stated: candidate B precedes candidate C in the
output although its raw aggregate score is strictly smaller — the code sorts
by the 3-decimal-rounded similarity_score, under which the two tie, and the
tie is broken by index. -/
theorem claim_C5_counterexample :
    (recommend_by_user rC5 "u" 5).map (fun x => x.course_id) = ["B", "C"] ∧
    aggregate_score rC5 [0] 1 < aggregate_score rC5 [0] 2 := by
  constructor
  · norm_num [recommend_by_user, recommend_from_liked, rC5, cWA, cWB, cWC, iU, simRow,
      mkOf, user_candidates, aggregate_score, course_id_to_idx, dedupKeepFirst, pySlice,
      List.insertionSort, List.orderedInsert, recGe, mkRecommendation, pyRound, pyRoundInt,
      List.filter, List.filterMap, List.foldl, List.find?,
      show pyStrip "u" = "u" from by decide,
      show List.range 3 = [0, 1, 2] from by decide,
      show (("B" : String) == "A") = false from by decide,
      show (("C" : String) == "A") = false from by decide,
      show (("A" : String) == "A") = true from by decide]
  · norm_num [aggregate_score, rC5, simRow]

/-! Claim C2. -/

theorem dotp_cons (a b : ℚ) (u v : List ℚ) :
    dotp (a :: u) (b :: v) = a * b + dotp u v := by
  simp [dotp]

theorem dotp_comm (u : List ℚ) : ∀ v : List ℚ, dotp u v = dotp v u := by
  induction u with
  | nil => intro v; cases v <;> simp [dotp]
  | cons a u ih =>
    intro v
    cases v with
    | nil => simp [dotp]
    | cons b v => rw [dotp_cons, dotp_cons, mul_comm, ih]

theorem dotp_self_nonneg (u : List ℚ) : 0 ≤ dotp u u := by
  induction u with
  | nil => simp [dotp]
  | cons a u ih =>
    rw [dotp_cons]
    exact add_nonneg (mul_self_nonneg a) ih

theorem dotp_nonneg : ∀ u v : List ℚ, (∀ x ∈ u, 0 ≤ x) → (∀ x ∈ v, 0 ≤ x) → 0 ≤ dotp u v
  | [], _, _, _ => by simp [dotp]
  | _ :: _, [], _, _ => by simp [dotp]
  | a :: u, b :: v, hu, hv => by
    rw [dotp_cons]
    exact add_nonneg (mul_nonneg (hu a (by simp)) (hv b (by simp)))
      (dotp_nonneg u v (fun x hx => hu x (by simp [hx])) (fun x hx => hv x (by simp [hx])))

theorem dotp_sq_le : ∀ u v : List ℚ, dotp u v ^ 2 ≤ dotp u u * dotp v v
  | [], v => by simp [dotp]
  | a :: u, [] => by simp [dotp]
  | a :: u, b :: v => by
    have h := dotp_sq_le u v
    have hA := dotp_self_nonneg u
    have hB := dotp_self_nonneg v
    rw [dotp_cons, dotp_cons, dotp_cons]
    have key : 2 * (a * b) * dotp u v ≤ dotp u u * b ^ 2 + a ^ 2 * dotp v v := by
      rcases le_or_lt (a * b * dotp u v) 0 with hneg | hpos
      · nlinarith [mul_nonneg hA (sq_nonneg b), mul_nonneg (sq_nonneg a) hB]
      · have h1 : (2 * (a * b) * dotp u v) ^ 2 ≤
            (dotp u u * b ^ 2 + a ^ 2 * dotp v v) ^ 2 := by
          nlinarith [sq_nonneg (dotp u u * b ^ 2 - a ^ 2 * dotp v v),
            mul_nonneg (sq_nonneg (a * b)) (sub_nonneg.mpr h)]
        nlinarith [h1, mul_nonneg hA (sq_nonneg b), mul_nonneg (sq_nonneg a) hB, hpos]
    nlinarith [h, key]

theorem cosineSim_comm (u v : List ℚ) : cosineSim u v = cosineSim v u := by
  unfold cosineSim
  rw [dotp_comm u v, mul_comm]

theorem cosineSim_nonneg (u v : List ℚ) (hu : ∀ x ∈ u, 0 ≤ x) (hv : ∀ x ∈ v, 0 ≤ x) :
    0 ≤ cosineSim u v := by
  unfold cosineSim
  apply div_nonneg
  · exact_mod_cast dotp_nonneg u v hu hv
  · exact mul_nonneg (Real.sqrt_nonneg _) (Real.sqrt_nonneg _)

theorem cosineSim_le_one (u v : List ℚ) (hu : ∀ x ∈ u, 0 ≤ x) (hv : ∀ x ∈ v, 0 ≤ x) :
    cosineSim u v ≤ 1 := by
  unfold cosineSim
  have hd : (0 : ℝ) ≤ ((dotp u v : ℚ) : ℝ) := by exact_mod_cast dotp_nonneg u v hu hv
  have hP : (0 : ℝ) ≤ ((dotp u u : ℚ) : ℝ) := by exact_mod_cast dotp_self_nonneg u
  have hQ : (0 : ℝ) ≤ ((dotp v v : ℚ) : ℝ) := by exact_mod_cast dotp_self_nonneg v
  have hsq : ((dotp u v : ℚ) : ℝ) ^ 2 ≤ ((dotp u u : ℚ) : ℝ) * ((dotp v v : ℚ) : ℝ) := by
    exact_mod_cast dotp_sq_le u v
  rcases eq_or_lt_of_le (mul_nonneg (Real.sqrt_nonneg ((dotp u u : ℚ) : ℝ))
      (Real.sqrt_nonneg ((dotp v v : ℚ) : ℝ))) with h0 | hpos
  · rw [← h0, div_zero]
    norm_num
  · rw [div_le_one hpos, ← Real.sqrt_mul hP]
    exact (Real.le_sqrt hd (mul_nonneg hP hQ)).mpr hsq

theorem cosineSim_self (u : List ℚ) (h : dotp u u ≠ 0) : cosineSim u u = 1 := by
  unfold cosineSim
  have hP0 : (0 : ℝ) ≤ ((dotp u u : ℚ) : ℝ) := by exact_mod_cast dotp_self_nonneg u
  have hne : ((dotp u u : ℚ) : ℝ) ≠ 0 := by exact_mod_cast h
  rw [Real.mul_self_sqrt hP0, div_self hne]

theorem simEntry_eq (vecs : List (List ℚ)) (i j : ℕ) (hi : i < vecs.length)
    (hj : j < vecs.length) :
    simEntry vecs i j = cosineSim (vecs.getD i []) (vecs.getD j []) := by
  unfold simEntry similarity_matrix
  rw [List.getD_eq_getElem _ _ (n := i) (by simpa using hi), List.getElem_map,
    List.getD_eq_getElem _ _ (n := j) (by simpa using hj), List.getElem_map,
    List.getD_eq_getElem _ _ hi, List.getD_eq_getElem _ _ hj]

/-- C2 (amended): every entry of the similarity matrix built from
nonnegative feature vectors (TF-IDF weights are nonnegative) is symmetric
and lies in [0, 1] in exact arithmetic — no clamping is present in the code
and none is needed — and the diagonal entry of an item is 1.0 whenever the
item's feature vector is nonzero; an all-zero row (an item whose text
vectorizes to nothing) has self-similarity 0 instead. -/
theorem claim_C2_similarity (vecs : List (List ℚ))
    (hn : ∀ u ∈ vecs, ∀ x ∈ u, 0 ≤ x) (i j : ℕ)
    (hi : i < vecs.length) (hj : j < vecs.length) :
    simEntry vecs i j = simEntry vecs j i ∧
    0 ≤ simEntry vecs i j ∧ simEntry vecs i j ≤ 1 ∧
    (dotp (vecs.getD i []) (vecs.getD i []) ≠ 0 → simEntry vecs i i = 1) := by
  have hmem : ∀ k, k < vecs.length → vecs.getD k [] ∈ vecs := by
    intro k hk
    rw [List.getD_eq_getElem _ _ hk]
    exact List.getElem_mem hk
  have hui := hn _ (hmem i hi)
  have huj := hn _ (hmem j hj)
  refine ⟨?_, ?_, ?_, ?_⟩
  · rw [simEntry_eq vecs i j hi hj, simEntry_eq vecs j i hj hi]
    exact cosineSim_comm _ _
  · rw [simEntry_eq vecs i j hi hj]
    exact cosineSim_nonneg _ _ hui huj
  · rw [simEntry_eq vecs i j hi hj]
    exact cosineSim_le_one _ _ hui huj
  · intro hne
    rw [simEntry_eq vecs i i hi hi]
    exact cosineSim_self _ hne

/-- Witness for C2: the one-item corpus with feature vector (1) satisfies
the nonnegativity hypothesis, and all four conclusions hold at entry
(0, 0). -/
theorem claim_C2_witness :
    (∀ u ∈ [[(1 : ℚ)]], ∀ x ∈ u, 0 ≤ x) ∧ 0 < ([[(1 : ℚ)]]).length ∧
    (simEntry [[(1 : ℚ)]] 0 0 = simEntry [[(1 : ℚ)]] 0 0 ∧
     0 ≤ simEntry [[(1 : ℚ)]] 0 0 ∧ simEntry [[(1 : ℚ)]] 0 0 ≤ 1 ∧
     (dotp ([[(1 : ℚ)]].getD 0 []) ([[(1 : ℚ)]].getD 0 []) ≠ 0 →
       simEntry [[(1 : ℚ)]] 0 0 = 1)) := by
  have hn : ∀ u ∈ [[(1 : ℚ)]], ∀ x ∈ u, 0 ≤ x := by
    intro u hu x hx
    simp only [List.mem_singleton] at hu
    subst hu
    simp only [List.mem_singleton] at hx
    subst hx
    norm_num
  exact ⟨hn, by norm_num, claim_C2_similarity _ hn 0 0 (by norm_num) (by norm_num)⟩

/-- Counterexample for C2 as stated: for the corpus whose first item has the
zero feature vector (its text contributes no term of the vocabulary), the
diagonal similarity entry is 0, not 1.0 — sklearn's normalize leaves the
zero row as is, so the dot product with itself is 0. -/
theorem claim_C2_counterexample :
    simEntry [[(0 : ℚ)], [(1 : ℚ)]] 0 0 = 0 ∧ (0 : ℝ) ≠ 1 := by
  constructor
  · rw [simEntry_eq _ 0 0 (by norm_num) (by norm_num)]
    have h : dotp [(0 : ℚ)] [(0 : ℚ)] = 0 := by simp [dotp]
    simp [cosineSim, h]
  · norm_num

end CourseRec
